import Mathlib

/-!
Shallow embedding of the arXiv query-parameter validation engine of
`mcp-server-papers` (`src/mcp_server_papers/utils.py`) and proofs about it.

Modelling conventions:
* Python strings are Lean `String`s; most work happens on `String.data`
  (`List Char`).
* Python character classes (`\w`, `\d`, `[a-z]`, `str.upper`, whitespace
  stripping, `int()` digits) are modelled at their ASCII meaning; the
  inputs exercised by the specification are all ASCII, so the modelled
  fragment is exactly the code's behaviour on that domain.
* Python `set` iteration order is implementation-dependent; where the code
  iterates a set (`VALID_OPERATORS`, the unknown-parameter set difference)
  the model fixes the literal's insertion order and theorems that depend on
  which element is reported are stated in an order-robust way (membership
  of the reported element, not its position).
* Fallible Python code (functions that `raise ValueError`) is modelled with
  `Except String`.
-/

deriving instance DecidableEq for Except

/-! ## Character helpers (ASCII fragment of Python's character classes) -/

/-- ASCII decimal digit, the ASCII fragment of a `\d` regex class. -/
def isDigitCh (c : Char) : Bool := 48 ≤ c.toNat && c.toNat ≤ 57

/-- ASCII lowercase letter, the `[a-z]` regex class. -/
def isLowerCh (c : Char) : Bool := 97 ≤ c.toNat && c.toNat ≤ 122

/-- ASCII uppercase letter, the `[A-Z]` regex class. -/
def isUpperCh (c : Char) : Bool := 65 ≤ c.toNat && c.toNat ≤ 90

/-- ASCII fragment of the `\w` regex class: `[a-zA-Z0-9_]`. -/
def isWordCh (c : Char) : Bool :=
  isDigitCh c || isLowerCh c || isUpperCh c || c = '_'

/-- Latin-1 fragment of Python's whitespace set, as used by `str.strip()`
and by `int()`'s surrounding-whitespace tolerance. -/
def pyIsSpace (c : Char) : Bool :=
  c = ' ' || c = '\t' || c = '\n' || c = '\r' || c = '\x0b' || c = '\x0c' ||
  c = '\x1c' || c = '\x1d' || c = '\x1e' || c = '\x1f' || c = '\x85' || c = '\xa0'

/-- ASCII fragment of Python's `str.upper()` on a single character. -/
def pyUpperChar (c : Char) : Char :=
  if isLowerCh c then Char.ofNat (c.toNat - 32) else c

/-- Python `str.upper()` (ASCII fragment), on the character list. -/
def pyUpper (l : List Char) : List Char := l.map pyUpperChar

/-- The `'+'` to `' '` replacement performed by `urllib.parse.parse_qsl`. -/
def plusToSpace (c : Char) : Char := if c = '+' then ' ' else c

/-- Hexadecimal digit, as accepted by `urllib.parse.unquote` escapes. -/
def isHexCh (c : Char) : Bool :=
  isDigitCh c || (97 ≤ c.toNat && c.toNat ≤ 102) || (65 ≤ c.toNat && c.toNat ≤ 70)

/-- Numeric value of a hexadecimal digit. -/
def hexVal (c : Char) : Nat :=
  if isDigitCh c then c.toNat - 48
  else if 97 ≤ c.toNat then c.toNat - 87
  else c.toNat - 55

/-- Numeric value of an ASCII decimal digit. -/
def digitVal (c : Char) : Nat := c.toNat - 48

/-! ## Generic list/string helpers -/

/-- Python's substring containment test `needle in hay`. -/
def isSub : List Char → List Char → Bool
  | n, [] => n.isEmpty
  | n, c :: t => n.isPrefixOf (c :: t) || isSub n t

/-- Python's `needle in hay` on `String`s. -/
def strContains (needle hay : String) : Bool := isSub needle.data hay.data

/-- Accumulator-based worker for `splitSep`. -/
def splitSepAux (sep : Char) : List Char → List Char → List (List Char)
  | acc, [] => [acc.reverse]
  | acc, c :: rest =>
    if c = sep then acc.reverse :: splitSepAux sep [] rest
    else splitSepAux sep (c :: acc) rest

/-- Python's `str.split(sep)` for a one-character separator: the result is
never empty, and an empty input yields `[[]]`. -/
def splitSep (sep : Char) (l : List Char) : List (List Char) := splitSepAux sep [] l

/-- Python's `str.strip()` (Latin-1 whitespace fragment). -/
def stripEnds (l : List Char) : List Char :=
  ((l.dropWhile pyIsSpace).reverse.dropWhile pyIsSpace).reverse

/-- First-some choice on options (`Option.or` spelt out locally). -/
def optOr (x y : Option String) : Option String :=
  match x with
  | some a => some a
  | none => y

/-! ## search_query validator (`validate_search_query`) -/

/--
Scanner for the matches of the regex `(\w+):` under `re.findall`: `run`
holds the reversed current run of word characters; a colon that ends a
nonempty run emits that run (the maximal word run immediately preceding the
colon), and scanning resumes after the colon.
-/
def findFieldsAux (run : List Char) : List Char → List (List Char)
  | [] => []
  | c :: rest =>
    if isWordCh c then findFieldsAux (c :: run) rest
    else if c = ':' && !run.isEmpty then run.reverse :: findFieldsAux [] rest
    else findFieldsAux [] rest

/-- The matches of the regex `(\w+):` under `re.findall`: every maximal run
of word characters that is immediately followed by a colon. -/
def findFields (l : List Char) : List (List Char) := findFieldsAux [] l

/-- Field prefixes found in a query string. -/
def fieldsOf (q : String) : List String := (findFields q.data).map (fun l => ⟨l⟩)

/-- `VALID_PREFIXES` from the source (a Python set; only membership and its
sorted join are ever used, both order-independent). -/
def validPrefixes : List String := ["ti", "au", "abs", "co", "jr", "cat", "rn", "id", "all"]

/-- The error message for an invalid field prefix; the allowed set is
rendered via `', '.join(sorted(VALID_PREFIXES))`. -/
def prefixErrMsg (f : String) : String :=
  "Invalid field prefix \x27" ++ f ++ "\x27. Valid prefixes: abs, all, au, cat, co, id, jr, rn, ti"

/-- The field-prefix loop of `validate_search_query`: first invalid prefix
raises. -/
def checkFields : List String → Except String Unit
  | [] => .ok ()
  | f :: rest =>
    if validPrefixes.contains f then checkFields rest else .error (prefixErrMsg f)

/-- `VALID_OPERATORS` from the source. It is a Python set, iterated in
implementation-defined order; the model fixes the literal's insertion
order. -/
def validOperators : List String := ["AND", "OR", "ANDNOT"]

/-- The space-flanked form `f' {operator} '` tested by the source. -/
def spaceFlank (op : String) : String := " " ++ op ++ " "

/-- The plus-flanked form `f'+{operator}+'` tested by the source. -/
def plusFlank (op : String) : String := "+" ++ op ++ "+"

/-- Condition under which the loop body of the boolean-operator check raises
for `op`: `op` occurs in the uppercased query but neither `" op "` nor
`"+op+"` occurs in the original query. -/
def opTriggers (op : String) (q : String) : Bool :=
  isSub op.data (pyUpper q.data) &&
    !(isSub (spaceFlank op).data q.data) && !(isSub (plusFlank op).data q.data)

/-- The error message for a malformed boolean operator. -/
def opErrMsg (op : String) : String :=
  "Boolean operator \x27" ++ op ++ "\x27 should be surrounded by spaces or + signs"

/-- The boolean-operator loop of `validate_search_query`. -/
def checkOps : List String → String → Except String Unit
  | [], _ => .ok ()
  | op :: rest, q =>
    if opTriggers op q then .error (opErrMsg op) else checkOps rest q

/-- `validate_search_query` from the source: field-prefix check, then
boolean-operator check, then the input is returned unchanged. -/
def validate_search_query (q : String) : Except String String :=
  match checkFields (fieldsOf q) with
  | .error e => .error e
  | .ok _ =>
    match checkOps validOperators q with
    | .error e => .error e
    | .ok _ => .ok q

/-! ## id_list validator (`validate_id_list`) -/

/-- Tail of an identifier after its digit block: the regex fragment
`(v\d+)?$` — either nothing, or a literal `v` followed by at least one
digit, reaching the end. -/
def matchVTail : List Char → Bool
  | [] => true
  | 'v' :: rest => !rest.isEmpty && rest.all isDigitCh
  | _ => false

/-- `[a-z-]`: the character class of a legacy subject-class token. -/
def isLowerHyphen (c : Char) : Bool := isLowerCh c || c = '-'

/-- The regex fragment `\d{7}(v\d+)?$`: exactly seven digits, then an
optional version suffix reaching the end. -/
def sevenDigitsTail (l : List Char) : Bool :=
  (l.take 7).length = 7 && (l.take 7).all isDigitCh && matchVTail (l.drop 7)

/-- `OLD_PATTERN` under `re.match`: `^[a-z-]+(\.[A-Z]{2})?/\d{7}(v\d+)?$`,
e.g. `math.GT/0309136v1`. The leading `[a-z-]+` run is maximal; since
neither `.` nor `/` is in the class, regex backtracking can never shorten
it, so the deterministic scan below is exact. -/
def matchOldId (s : String) : Bool :=
  let run := s.data.takeWhile isLowerHyphen
  let rest := s.data.dropWhile isLowerHyphen
  !run.isEmpty &&
    (match rest with
     | '.' :: a :: b :: '/' :: r2 => isUpperCh a && isUpperCh b && sevenDigitsTail r2
     | '/' :: r2 => sevenDigitsTail r2
     | _ => false)

/-- `NEW_PATTERN` under `re.match`: `^\d{4}\.\d{4,5}(v\d+)?$`, e.g.
`2301.00001v1`. The `\d{4,5}` block is the maximal digit run after the dot
(greedy, and a shorter match would leave a digit where `v` or the end is
required), so the deterministic scan below is exact. -/
def matchNewId (s : String) : Bool :=
  match s.data with
  | a :: b :: c :: d :: '.' :: rest =>
    isDigitCh a && isDigitCh b && isDigitCh c && isDigitCh d &&
      (let n := (rest.takeWhile isDigitCh).length
       (n = 4 || n = 5) && matchVTail (rest.dropWhile isDigitCh))
  | _ => false

/-- The comma-separated members of an `id_list` value, each stripped of
surrounding whitespace: `[id.strip() for id in id_list.split(',')]`. -/
def idMembers (s : String) : List String :=
  (splitSep ',' s.data).map (fun m => ⟨stripEnds m⟩)

/-- The error message for an empty identifier member. -/
def emptyIdMsg : String := "Empty arXiv ID in id_list"

/-- The error message for a malformed identifier member. -/
def badIdMsg (m : String) : String :=
  "Invalid arXiv ID format: \x27" ++ m ++
    "\x27. Expected formats: \x27YYMM.NNNN[vN]\x27 or \x27subject-class/YYMMnnn[vN]\x27"

/-- Validity of a single member, as the loop body of `validate_id_list`
tests it: non-empty and matching one of the two identifier shapes. -/
def memberOkB (m : String) : Bool := !(m == "") && (matchOldId m || matchNewId m)

/-- The error the loop body raises for a failing member. -/
def idErrMsg (m : String) : String := if m == "" then emptyIdMsg else badIdMsg m

/-- The member loop of `validate_id_list`: first failing member raises. -/
def checkIds : List String → Except String Unit
  | [] => .ok ()
  | m :: rest =>
    if m == "" then .error emptyIdMsg
    else if matchOldId m || matchNewId m then checkIds rest
    else .error (badIdMsg m)

/-- `validate_id_list` from the source: split on commas, strip each member,
check each member, return the input unchanged on success. -/
def validate_id_list (s : String) : Except String String :=
  match checkIds (idMembers s) with
  | .error e => .error e
  | .ok _ => .ok s

/-! ## Integer parsing (`int()` on strings) and the start / max_results validators -/

/-- Digit-run worker for `pyInt`: consumes digits with single interior
underscores (each underscore must sit between two digits). -/
def parseDigitsGo (acc : Nat) : List Char → Option Nat
  | [] => some acc
  | '_' :: d :: rest =>
    if isDigitCh d then parseDigitsGo (acc * 10 + digitVal d) rest else none
  | '_' :: [] => none
  | c :: rest =>
    if isDigitCh c then parseDigitsGo (acc * 10 + digitVal c) rest else none

/-- An unsigned digit run as accepted by Python `int()`: at least one digit,
underscores only between digits. -/
def parseDigits : List Char → Option Nat
  | [] => none
  | c :: rest => if isDigitCh c then parseDigitsGo (digitVal c) rest else none

/-- Python `int(s)` on a string (ASCII digits): surrounding whitespace is
stripped, one optional sign, then a digit run with optional single interior
underscores. `none` models the `invalid literal for int()` ValueError. -/
def pyInt (s : String) : Option Int :=
  match stripEnds s.data with
  | '+' :: rest => (parseDigits rest).map Int.ofNat
  | '-' :: rest => (parseDigits rest).map (fun n => -(n : Int))
  | l => (parseDigits l).map Int.ofNat

/-- `validate_start` from the source. The in-body ValueError for a negative
value does not contain `"invalid literal"`, so the `except` clause re-raises
it unchanged; the `int()` failure is replaced by the fixed message. -/
def validate_start (s : String) : Except String Int :=
  match pyInt s with
  | none => .error "\x27start\x27 must be a valid integer"
  | some n => if n < 0 then .error "\x27start\x27 must be non-negative" else .ok n

/-- `validate_max_results` from the source; same re-raise analysis as
`validate_start`. -/
def validate_max_results (s : String) : Except String Int :=
  match pyInt s with
  | none => .error "\x27max_results\x27 must be a valid integer"
  | some n =>
    if n ≤ 0 then .error "\x27max_results\x27 must be positive"
    else if n > 2000 then .error "\x27max_results\x27 cannot exceed 2000 (arXiv API limit)"
    else .ok n

/-! ## sortBy / sortOrder validators -/

/-- `validate_sort_by` from the source; the allowed set is rendered via
`', '.join(sorted(VALID_SORT_BY))`. -/
def validate_sort_by (s : String) : Except String String :=
  if ["relevance", "lastUpdatedDate", "submittedDate"].contains s then .ok s
  else
    .error ("Invalid \x27sortBy\x27 value \x27" ++ s ++
      "\x27. Valid options: lastUpdatedDate, relevance, submittedDate")

/-- `validate_sort_order` from the source. -/
def validate_sort_order (s : String) : Except String String :=
  if ["ascending", "descending"].contains s then .ok s
  else
    .error ("Invalid \x27sortOrder\x27 value \x27" ++ s ++
      "\x27. Valid options: ascending, descending")

/-! ## submittedDate range validator (`validate_submitted_date`) -/

/-- Twelve digits off the front of a list, as matched by the regex fragment
`\d{8}\d{4}`; returns the digits and the remainder. -/
def take12 (l : List Char) : Option (List Char × List Char) :=
  if (l.take 12).length = 12 && (l.take 12).all isDigitCh then
    some (l.take 12, l.drop 12)
  else none

/-- A single literal character off the front of a list. -/
def dropLit (c : Char) : List Char → Option (List Char)
  | [] => none
  | x :: rest => if x = c then some rest else none

/-- The regex `^\[(\d{8}\d{4})\+TO\+(\d{8}\d{4})\]$` under `re.match`:
`[`, twelve digits, `+TO+`, twelve digits, `]`, then `$`; on success, the
two captured 12-digit timestamps. All counts are fixed, so this
deterministic scan is exact. Python's `$` (without `re.MULTILINE`) matches
at the end of the string or just before one newline at the end of the
string, so after the closing `]` the remainder must be empty or a single
`'\n'`. -/
def matchSubmittedShape (l : List Char) : Option (List Char × List Char) :=
  (dropLit '[' l).bind fun r1 =>
  (take12 r1).bind fun dr =>
  (dropLit '+' dr.2).bind fun ra =>
  (dropLit 'T' ra).bind fun rb =>
  (dropLit 'O' rb).bind fun rc =>
  (dropLit '+' rc).bind fun r3 =>
  (take12 r3).bind fun er =>
  if er.2 = [']'] ∨ er.2 = [']', '\n'] then some (dr.1, er.1) else none

/-- Value of a digit string read in base 10. -/
def digitsToNat : List Char → Nat
  | [] => 0
  | c :: rest => digitVal c * 10 ^ rest.length + digitsToNat rest

/-- Python's string `<` on character lists: lexicographic by code point. -/
def lexLt : List Char → List Char → Bool
  | [], [] => false
  | [], _ :: _ => true
  | _ :: _, [] => false
  | a :: as, b :: bs =>
    if a.toNat < b.toNat then true
    else if b.toNat < a.toNat then false
    else lexLt as bs

/-- The format-error message of `validate_submitted_date`. -/
def submittedFmtMsg : String :=
  "Invalid \x27submittedDate\x27 format. Expected: [YYYYMMDDTTTT+TO+YYYYMMDDTTTT]"

/-- The range-order error message of `validate_submitted_date`. -/
def submittedOrderMsg : String :=
  "Start date must be before end date in \x27submittedDate\x27 range"

/-- `validate_submitted_date` from the source: shape match, then
`start_date >= end_date` (Python string comparison) raises the range-order
error, else the input is returned unchanged. -/
def validate_submitted_date (s : String) : Except String String :=
  match matchSubmittedShape s.data with
  | none => .error submittedFmtMsg
  | some (d1, d2) => if lexLt d1 d2 then .ok s else .error submittedOrderMsg

/-! ## Query-string parsing (`urllib.parse.parse_qs` with default options) -/

/--
Percent-decoding as performed by `urllib.parse.unquote`, modelled at the
code-point level: `%XX` with two hex digits becomes the character with that
code; an invalid escape keeps its `%` literally. (Python assembles escaped
bytes and decodes them as UTF-8; for the ASCII escapes exercised here the
code-point model coincides with that.)
-/
def unquoteCP : List Char → List Char
  | [] => []
  | '%' :: a :: b :: rest =>
    if isHexCh a && isHexCh b then
      Char.ofNat (16 * hexVal a + hexVal b) :: unquoteCP rest
    else '%' :: unquoteCP (a :: b :: rest)
  | c :: rest => c :: unquoteCP rest

/-- Decoding applied by `parse_qsl` to each name and value: `'+'` to space,
then percent-decoding (in that order, so `%2B` survives as `+`). -/
def decodeComponent (l : List Char) : List Char := unquoteCP (l.map plusToSpace)

/-- Split a segment at its first `=`, like `name_value.split('=', 1)`:
`none` when the segment has no `=`. -/
def splitOnFirstEq : List Char → Option (List Char × List Char)
  | [] => none
  | '=' :: rest => some ([], rest)
  | c :: rest => (splitOnFirstEq rest).map (fun nv => (c :: nv.1, nv.2))

/--
One iteration of the `parse_qsl` loop with the default options
(`keep_blank_values=False`, `strict_parsing=False`): an empty segment, a
segment without `=`, and a segment whose raw value is empty are all dropped;
otherwise name and value are decoded and the pair is kept.
-/
def parseSeg (seg : List Char) : Option (String × String) :=
  if seg = [] then none
  else
    match splitOnFirstEq seg with
    | none => none
    | some nv =>
      if nv.2 = [] then none
      else some (⟨decodeComponent nv.1⟩, ⟨decodeComponent nv.2⟩)

/-- `urllib.parse.parse_qsl` with default options: split on `&` and keep
the decoded pairs of the surviving segments, in order. -/
def parse_qsl (s : String) : List (String × String) :=
  (splitSep '&' s.data).filterMap parseSeg

/-- The parsed-query mapping: parameter name to its list of values, in
first-appearance order of the names (a Python dict preserves insertion
order). -/
def ParsedQS : Type := List (String × List String)

/-- The dict-building step of `parse_qs`: append the value to an existing
key's list, else append a new entry. -/
def insertPair (acc : List (String × List String)) (kv : String × String) :
    List (String × List String) :=
  match acc with
  | [] => [(kv.1, [kv.2])]
  | (k, vs) :: rest =>
    if k = kv.1 then (k, vs ++ [kv.2]) :: rest else (k, vs) :: insertPair rest kv

/-- `urllib.parse.parse_qs` with default options. -/
def parse_qs (s : String) : List (String × List String) :=
  (parse_qsl s).foldl insertPair []

/-- Dict key lookup (`parsed[k]`, guarded by `k in parsed`). -/
def qsLookup : List (String × List String) → String → Option (List String)
  | [], _ => none
  | (k, vs) :: rest, key => if k = key then some vs else qsLookup rest key

/-- `parsed[k][0]` as an option: the first retained value for `k`. The
value lists built by `parse_qs` are never empty, so `head?` never loses
information. -/
def getFirst (p : List (String × List String)) (key : String) : Option String :=
  (qsLookup p key).bind List.head?

/-- `parsed.keys()`, in insertion order. -/
def qsKeys (p : List (String × List String)) : List String := p.map Prod.fst

/-- The first value associated with `key` in a pair list. -/
def firstVal : List (String × String) → String → Option String
  | [], _ => none
  | (k, v) :: rest, key => if k = key then some v else firstVal rest key

/--
Modelled from the spec: the **RawQuery** of §3, "an ordered sequence of
(name, value) string pairs as decoded from a URL query string" — every
`&`-separated segment with an `=` contributes its decoded (name, value)
pair, blank values included. It exists only to state what "the first value
given for a name" means; the code's parser is `parse_qs` above.
-/
def specRawPairs (s : String) : List (String × String) :=
  (splitSep '&' s.data).filterMap (fun seg =>
    match splitOnFirstEq seg with
    | none => none
    | some (n, v) => some (⟨decodeComponent n⟩, ⟨decodeComponent v⟩))

/-! ## Validation orchestrator (`validate_arxiv_params`) -/

/-- A validated parameter value: the source returns strings for
`search_query`, `id_list`, `sortBy`, `sortOrder` and integers for `start`,
`max_results`. -/
inductive ParamValue where
  | str : String → ParamValue
  | int : Int → ParamValue
deriving DecidableEq, Repr

/-- The validated mapping, in the insertion order of the source. -/
def VDict : Type := List (String × ParamValue)

/-- The required-parameter test: `'search_query' in parsed or 'id_list' in
parsed`. -/
def requiredOkB (p : List (String × List String)) : Bool :=
  (qsLookup p "search_query").isSome || (qsLookup p "id_list").isSome

/-- The `missing-required` message. -/
def requiredMsg : String :=
  "Either \x27search_query\x27 or \x27id_list\x27 parameter is required"

/-- Step 1 of the orchestrator. -/
def requiredCheck (p : List (String × List String)) : Except String Unit :=
  if requiredOkB p then .ok () else .error requiredMsg

/--
One `if name in parsed: validated[name] = f(parsed[name][0])` step of the
orchestrator: absent key leaves the accumulator unchanged; a validator
failure is propagated as-is.
-/
def stepField (p : List (String × List String)) (name : String)
    (f : String → Except String ParamValue) (acc : List (String × ParamValue)) :
    Except String (List (String × ParamValue)) :=
  match getFirst p name with
  | none => .ok acc
  | some raw =>
    match f raw with
    | .ok v => .ok (acc ++ [(name, v)])
    | .error e => .error e

/-- `known_params` from the source. -/
def knownParams : List String :=
  ["search_query", "id_list", "start", "max_results", "sortBy", "sortOrder"]

/-- The keys of the parsed query outside the recognized set. The source
computes a Python set difference and joins it in set-iteration order; the
model keeps encounter order (the choice only permutes the joined list). -/
def unknownKeys (p : List (String × List String)) : List String :=
  (qsKeys p).filter (fun k => !(knownParams.contains k))

/-- Python's `', '.join`. -/
def joinCommaSpace : List String → String
  | [] => ""
  | [x] => x
  | x :: y :: rest => x ++ ", " ++ joinCommaSpace (y :: rest)

/-- The `unknown-parameter` message. -/
def unknownMsg (p : List (String × List String)) : String :=
  "Unknown parameters: " ++ joinCommaSpace (unknownKeys p)

/-- Step 3 of the orchestrator. -/
def unknownCheck (p : List (String × List String)) : Except String Unit :=
  if unknownKeys p = [] then .ok () else .error (unknownMsg p)

/-- The body of the `try` block of `validate_arxiv_params`, applied to the
parsed query: required check, the six dispatch steps in source order, then
the unknown-parameter guard. -/
def validateParsed (p : List (String × List String)) :
    Except String (List (String × ParamValue)) :=
  match requiredCheck p with
  | .error e => .error e
  | .ok _ =>
    match stepField p "search_query" (fun s => (validate_search_query s).map .str) [] with
    | .error e => .error e
    | .ok v1 =>
      match stepField p "id_list" (fun s => (validate_id_list s).map .str) v1 with
      | .error e => .error e
      | .ok v2 =>
        match stepField p "start" (fun s => (validate_start s).map .int) v2 with
        | .error e => .error e
        | .ok v3 =>
          match stepField p "max_results" (fun s => (validate_max_results s).map .int) v3 with
          | .error e => .error e
          | .ok v4 =>
            match stepField p "sortBy" (fun s => (validate_sort_by s).map .str) v4 with
            | .error e => .error e
            | .ok v5 =>
              match stepField p "sortOrder" (fun s => (validate_sort_order s).map .str) v5 with
              | .error e => .error e
              | .ok v6 =>
                match unknownCheck p with
                | .error e => .error e
                | .ok _ => .ok v6

/-- `validate_arxiv_params` from the source: the surrounding
`except Exception` clause re-raises every failure wrapped as
`"Parameter validation failed: {e}"`. -/
def validate_arxiv_params (s : String) : Except String (List (String × ParamValue)) :=
  match validateParsed (parse_qs s) with
  | .ok v => .ok v
  | .error e => .error ("Parameter validation failed: " ++ e)

/-- Whether an `Except` value is a success. -/
def exOk {α : Type} : Except String α → Bool
  | .ok _ => true
  | .error _ => false

/-- Whether one dispatch step of the orchestrator succeeds on `p` (true
also when the parameter is absent). -/
def stepOkB (p : List (String × List String)) (name : String)
    (f : String → Except String ParamValue) : Bool :=
  match getFirst p name with
  | none => true
  | some raw => exOk (f raw)

/-- Whether the required-parameter rule and all six dispatch steps succeed
on `p`, i.e. the orchestrator reaches its unknown-parameter guard. -/
def fieldStepsOk (p : List (String × List String)) : Bool :=
  requiredOkB p &&
  stepOkB p "search_query" (fun s => (validate_search_query s).map .str) &&
  stepOkB p "id_list" (fun s => (validate_id_list s).map .str) &&
  stepOkB p "start" (fun s => (validate_start s).map .int) &&
  stepOkB p "max_results" (fun s => (validate_max_results s).map .int) &&
  stepOkB p "sortBy" (fun s => (validate_sort_by s).map .str) &&
  stepOkB p "sortOrder" (fun s => (validate_sort_order s).map .str)

/-- The decoded name of a raw `&`-segment: the decoded part before the
first `=`, or the whole decoded segment when there is no `=`. -/
def segNameDecoded (seg : List Char) : String :=
  match splitOnFirstEq seg with
  | some nv => ⟨decodeComponent nv.1⟩
  | none => ⟨decodeComponent seg⟩

/-- Whether a raw `&`-segment carries an empty value: its part after the
first `=` is empty, or it has no `=` at all. -/
def segIsEmptyVal (seg : List Char) : Bool :=
  match splitOnFirstEq seg with
  | some nv => nv.2.isEmpty
  | none => true

/-! ## Model sanity checks -/

example : validate_search_query "ti:quantum" = .ok "ti:quantum" := by decide
example : validate_search_query "ti:a AND ti:b" = .ok "ti:a AND ti:b" := by decide
example : validate_search_query "ti:a ANDNOT ti:b" = .error (opErrMsg "AND") := by decide
example : validate_search_query "xx:q.AND.b" = .error (prefixErrMsg "xx") := by decide
example : validate_id_list "2301.00001" = .ok "2301.00001" := by decide
example : validate_id_list "math.GT/0309136v1,2301.00001" = .ok "math.GT/0309136v1,2301.00001" := by decide
example : validate_id_list "2301.00001,,x" = .error emptyIdMsg := by decide
example : validate_id_list "23010.0001" = .error (badIdMsg "23010.0001") := by decide
example : pyInt " 5 " = some 5 := by decide
example : pyInt "+5" = some 5 := by decide
example : pyInt "1_0" = some 10 := by decide
example : pyInt "1__0" = none := by decide
example : pyInt "-3" = some (-3) := by decide
example : validate_start "-1" = .error "\x27start\x27 must be non-negative" := by decide
example : validate_max_results "2000" = .ok 2000 := by decide
example : validate_submitted_date "[202001010000+TO+202101010000]" = .ok "[202001010000+TO+202101010000]" := by decide
example : validate_submitted_date "[202001010000+TO+202001010000]" = .error submittedOrderMsg := by decide
example : validate_submitted_date "[20200101+TO+20210101]" = .error submittedFmtMsg := by decide
example : parse_qsl "search_query=ti:quantum&max_results=5" =
    [("search_query", "ti:quantum"), ("max_results", "5")] := by decide
example : parse_qsl "a=&a=x&a" = [("a", "x")] := by decide
example : parse_qs "a=1&b=2&a=3" = [("a", ["1", "3"]), ("b", ["2"])] := by decide
example : getFirst (parse_qs "a=1&b=2&a=3") "a" = some "1" := by decide
example : decodeComponent "ti%3Aq+x".data = "ti:q x".data := by decide
example : validate_arxiv_params "search_query=ti:quantum&max_results=5" =
    .ok [("search_query", .str "ti:quantum"), ("max_results", .int 5)] := by decide
example : validate_arxiv_params "foo=bar" =
    .error ("Parameter validation failed: " ++ requiredMsg) := by decide
example : validate_arxiv_params "search_query=au:einstein&foo=bar" =
    .error "Parameter validation failed: Unknown parameters: foo" := by decide
example : validate_arxiv_params "search_query=" =
    .error ("Parameter validation failed: " ++ requiredMsg) := by decide
example : validate_arxiv_params "search_query=ti:quantum&foo=" =
    .ok [("search_query", .str "ti:quantum")] := by decide

/-! ## Helper lemmas -/

theorem isSub_nil_needle (hay : List Char) : isSub [] hay = true := by
  cases hay <;> simp [isSub, List.isPrefixOf]

theorem isSub_self_append (n b : List Char) : isSub n (n ++ b) = true := by
  cases n with
  | nil => exact isSub_nil_needle b
  | cons c t =>
    show isSub (c :: t) ((c :: t) ++ b) = true
    have hp : (c :: t).isPrefixOf ((c :: t) ++ b) = true := by
      rw [List.isPrefixOf_iff_prefix]
      exact ⟨b, rfl⟩
    simp [isSub, hp]

theorem isSub_cons_of (n : List Char) (x : Char) (t : List Char) (h : isSub n t = true) :
    isSub n (x :: t) = true := by
  cases n with
  | nil => simp [isSub, List.isPrefixOf]
  | cons c cs => simp [isSub, h]

theorem isSub_append (n a b : List Char) : isSub n (a ++ n ++ b) = true := by
  induction a with
  | nil => simpa using isSub_self_append n b
  | cons x a' ih =>
    show isSub n (x :: (a' ++ n ++ b)) = true
    exact isSub_cons_of n x _ ih

theorem joinCS_mem_decomp (l : List String) (k : String) (hk : k ∈ l) :
    ∃ a b, (joinCommaSpace l).data = a ++ k.data ++ b := by
  induction l with
  | nil => cases hk
  | cons x rest ih =>
    cases rest with
    | nil =>
      rcases List.mem_cons.mp hk with h | h
      · exact ⟨[], [], by simp [joinCommaSpace, h]⟩
      · cases h
    | cons y rest' =>
      rcases List.mem_cons.mp hk with h | h
      · refine ⟨[], (", " ++ joinCommaSpace (y :: rest')).data, ?_⟩
        show ((x ++ ", ") ++ joinCommaSpace (y :: rest')).data = _
        simp [String.data_append, h]
      · obtain ⟨a, b, hab⟩ := ih h
        refine ⟨(x ++ ", ").data ++ a, b, ?_⟩
        show ((x ++ ", ") ++ joinCommaSpace (y :: rest')).data = _
        simp [String.data_append, hab]

theorem strContains_append_join (k pre : String) (l : List String) (hk : k ∈ l) :
    strContains k (pre ++ joinCommaSpace l) = true := by
  obtain ⟨a, b, hab⟩ := joinCS_mem_decomp l k hk
  show isSub k.data (pre ++ joinCommaSpace l).data = true
  rw [String.data_append, hab, show pre.data ++ (a ++ k.data ++ b) =
    (pre.data ++ a) ++ k.data ++ b by simp]
  exact isSub_append _ _ _

theorem memberOkB_iff (m : String) :
    memberOkB m = true ↔ m ≠ "" ∧ (matchOldId m = true ∨ matchNewId m = true) := by
  simp [memberOkB]

theorem checkIds_ok_iff (ms : List String) :
    checkIds ms = .ok () ↔ ∀ m ∈ ms, memberOkB m = true := by
  induction ms with
  | nil => simp [checkIds]
  | cons m rest ih =>
    by_cases he : m = ""
    · have hb : (m == "") = true := by simp [he]
      have hred : checkIds (m :: rest) = .error emptyIdMsg := by simp [checkIds, hb]
      rw [hred]
      constructor
      · intro h
        simp at h
      · intro h
        have hmem := (memberOkB_iff m).mp (h m (List.mem_cons_self m rest))
        exact absurd he hmem.1
    · have hb : (m == "") = false := by simp [he]
      by_cases hm : (matchOldId m || matchNewId m) = true
      · have hred : checkIds (m :: rest) = checkIds rest := by simp [checkIds, hb, hm]
        rw [hred, ih]
        constructor
        · intro h x hx
          rcases List.mem_cons.mp hx with rfl | hx
          · exact (memberOkB_iff x).mpr ⟨he, by simpa using hm⟩
          · exact h x hx
        · intro h x hx
          exact h x (List.mem_cons_of_mem _ hx)
      · simp only [Bool.not_eq_true] at hm
        have hred : checkIds (m :: rest) = .error (badIdMsg m) := by simp [checkIds, hb, hm]
        rw [hred]
        constructor
        · intro h
          simp at h
        · intro h
          have hmem := (memberOkB_iff m).mp (h m (List.mem_cons_self m rest))
          rcases hmem.2 with h1 | h1 <;> simp [h1] at hm

theorem checkIds_first_error (pre : List String) (m : String) (rest : List String)
    (hpre : ∀ x ∈ pre, memberOkB x = true) (hm : memberOkB m = false) :
    checkIds (pre ++ m :: rest) = .error (idErrMsg m) := by
  induction pre with
  | nil =>
    simp only [List.nil_append, checkIds]
    by_cases he : m = ""
    · have hb : (m == "") = true := by simp [he]
      simp [hb, idErrMsg]
    · have hb : (m == "") = false := by simp [he]
      have hmm : (matchOldId m || matchNewId m) = false := by
        simp only [memberOkB, hb, Bool.not_false, Bool.true_and] at hm
        exact hm
      simp [hb, hmm, idErrMsg]
  | cons x pre' ih =>
    have hx : memberOkB x = true := hpre x (List.mem_cons_self x pre')
    obtain ⟨hxe, hxm⟩ := (memberOkB_iff x).mp hx
    have hb : (x == "") = false := by simp [hxe]
    have hmm : (matchOldId x || matchNewId x) = true := by
      rcases hxm with h | h <;> simp [h]
    simp only [List.cons_append, checkIds, hb, Bool.false_eq_true, if_false, hmm, if_true]
    exact ih (fun y hy => hpre y (List.mem_cons_of_mem _ hy))

theorem dropLit_some_iff (c : Char) (l r : List Char) :
    dropLit c l = some r ↔ l = c :: r := by
  cases l with
  | nil => simp [dropLit]
  | cons x rest =>
    by_cases hx : x = c
    · subst hx
      simp [dropLit]
    · simp [dropLit, hx]

theorem take12_some (l d r : List Char) (h : take12 l = some (d, r)) :
    l = d ++ r ∧ d.length = 12 ∧ d.all isDigitCh = true := by
  unfold take12 at h
  split at h
  · rename_i hcond
    rw [Bool.and_eq_true] at hcond
    injection h with h'
    injection h' with ha hb
    subst ha
    subst hb
    exact ⟨(List.take_append_drop 12 l).symm, of_decide_eq_true hcond.1, hcond.2⟩
  · cases h

theorem take12_append (d r : List Char) (hlen : d.length = 12)
    (hall : d.all isDigitCh = true) : take12 (d ++ r) = some (d, r) := by
  have ht : (d ++ r).take 12 = d := by rw [← hlen]; exact List.take_left d r
  have hd : (d ++ r).drop 12 = r := by rw [← hlen]; exact List.drop_left d r
  unfold take12
  rw [ht, hd, hlen, hall]
  simp

theorem matchSubmittedShape_some (l d1 d2 : List Char)
    (h : matchSubmittedShape l = some (d1, d2)) :
    ∃ tail, (tail = [']'] ∨ tail = [']', '\n']) ∧
      l = '[' :: (d1 ++ '+' :: 'T' :: 'O' :: '+' :: (d2 ++ tail)) ∧
      d1.length = 12 ∧ d1.all isDigitCh = true ∧
      d2.length = 12 ∧ d2.all isDigitCh = true := by
  unfold matchSubmittedShape at h
  rcases h1 : dropLit '[' l with _ | r1 <;> rw [h1] at h <;>
    simp only [Option.none_bind, Option.some_bind] at h
  · cases h
  rcases h2 : take12 r1 with _ | ⟨da, r2⟩ <;> rw [h2] at h <;>
    simp only [Option.none_bind, Option.some_bind] at h
  · cases h
  rcases h3 : dropLit '+' r2 with _ | ra <;> rw [h3] at h <;>
    simp only [Option.none_bind, Option.some_bind] at h
  · cases h
  rcases h4 : dropLit 'T' ra with _ | rb <;> rw [h4] at h <;>
    simp only [Option.none_bind, Option.some_bind] at h
  · cases h
  rcases h5 : dropLit 'O' rb with _ | rc <;> rw [h5] at h <;>
    simp only [Option.none_bind, Option.some_bind] at h
  · cases h
  rcases h6 : dropLit '+' rc with _ | r3 <;> rw [h6] at h <;>
    simp only [Option.none_bind, Option.some_bind] at h
  · cases h
  rcases h7 : take12 r3 with _ | ⟨db, r4⟩ <;> rw [h7] at h <;>
    simp only [Option.none_bind, Option.some_bind] at h
  · cases h
  split at h
  · rename_i hr4
    obtain ⟨he1, hl1, hd1⟩ := take12_some r1 da r2 h2
    obtain ⟨he2, hl2, hd2⟩ := take12_some r3 db r4 h7
    injection h with h'
    injection h' with ha hb
    subst ha
    subst hb
    rw [dropLit_some_iff] at h1 h3 h4 h5 h6
    subst h1
    subst h3
    subst h4
    subst h5
    subst h6
    subst he1
    subst he2
    exact ⟨r4, hr4, rfl, hl1, hd1, hl2, hd2⟩
  · cases h

theorem matchSubmittedShape_build (d1 d2 tail : List Char)
    (htail : tail = [']'] ∨ tail = [']', '\n'])
    (hl1 : d1.length = 12) (hd1 : d1.all isDigitCh = true)
    (hl2 : d2.length = 12) (hd2 : d2.all isDigitCh = true) :
    matchSubmittedShape ('[' :: (d1 ++ '+' :: 'T' :: 'O' :: '+' :: (d2 ++ tail))) =
      some (d1, d2) := by
  rcases htail with rfl | rfl
  · simp [matchSubmittedShape, dropLit,
      take12_append d1 ('+' :: 'T' :: 'O' :: '+' :: (d2 ++ [']'])) hl1 hd1,
      take12_append d2 [']'] hl2 hd2]
  · simp [matchSubmittedShape, dropLit,
      take12_append d1 ('+' :: 'T' :: 'O' :: '+' :: (d2 ++ [']', '\n'])) hl1 hd1,
      take12_append d2 [']', '\n'] hl2 hd2]

theorem digitsToNat_lt (l : List Char) (h : l.all isDigitCh = true) :
    digitsToNat l < 10 ^ l.length := by
  induction l with
  | nil => simp [digitsToNat]
  | cons c rest ih =>
    rw [List.all_cons, Bool.and_eq_true] at h
    have hc : digitVal c ≤ 9 := by
      have := h.1
      simp only [isDigitCh, Bool.and_eq_true, decide_eq_true_eq] at this
      simp only [digitVal]
      omega
    have hr := ih h.2
    simp only [digitsToNat, List.length_cons, pow_succ]
    have h1 : digitVal c * 10 ^ rest.length ≤ 9 * 10 ^ rest.length :=
      mul_le_mul_right' hc _
    omega

theorem lexLt_imp_digitsToNat_lt (a : List Char) :
    ∀ b, a.length = b.length → a.all isDigitCh = true → b.all isDigitCh = true →
      lexLt a b = true → digitsToNat a < digitsToNat b := by
  induction a with
  | nil =>
    intro b hlen _ _ hlex
    cases b with
    | nil => simp [lexLt] at hlex
    | cons _ _ => simp at hlen
  | cons c as ih =>
    intro b hlen ha hb hlex
    cases b with
    | nil => simp at hlen
    | cons d bs =>
      rw [List.all_cons, Bool.and_eq_true] at ha hb
      simp only [List.length_cons] at hlen
      have hlen' : as.length = bs.length := by omega
      have hcb : 48 ≤ c.toNat ∧ c.toNat ≤ 57 := by
        have := ha.1
        simp only [isDigitCh, Bool.and_eq_true, decide_eq_true_eq] at this
        exact this
      have hdb : 48 ≤ d.toNat ∧ d.toNat ≤ 57 := by
        have := hb.1
        simp only [isDigitCh, Bool.and_eq_true, decide_eq_true_eq] at this
        exact this
      simp only [lexLt] at hlex
      by_cases h1 : c.toNat < d.toNat
      · have hcd : digitVal c + 1 ≤ digitVal d := by
          simp only [digitVal]
          omega
        have hub := digitsToNat_lt as ha.2
        simp only [digitsToNat, hlen']
        have hmul : (digitVal c + 1) * 10 ^ bs.length ≤ digitVal d * 10 ^ bs.length :=
          mul_le_mul_right' hcd _
        rw [add_mul, one_mul] at hmul
        rw [hlen'] at hub
        omega
      · rw [if_neg h1] at hlex
        by_cases h2 : d.toNat < c.toNat
        · rw [if_pos h2] at hlex
          cases hlex
        · rw [if_neg h2] at hlex
          have hdv : digitVal c = digitVal d := by
            simp only [digitVal]
            omega
          have := ih bs hlen' ha.2 hb.2 hlex
          simp only [digitsToNat, hdv, hlen']
          omega

theorem lexLt_false_imp_ge (a : List Char) :
    ∀ b, a.length = b.length → a.all isDigitCh = true → b.all isDigitCh = true →
      lexLt a b = false → digitsToNat b ≤ digitsToNat a := by
  induction a with
  | nil =>
    intro b hlen _ _ _
    cases b with
    | nil => simp [digitsToNat]
    | cons _ _ => simp at hlen
  | cons c as ih =>
    intro b hlen ha hb hlex
    cases b with
    | nil => simp at hlen
    | cons d bs =>
      rw [List.all_cons, Bool.and_eq_true] at ha hb
      simp only [List.length_cons] at hlen
      have hlen' : as.length = bs.length := by omega
      have hcb : 48 ≤ c.toNat ∧ c.toNat ≤ 57 := by
        have := ha.1
        simp only [isDigitCh, Bool.and_eq_true, decide_eq_true_eq] at this
        exact this
      have hdb : 48 ≤ d.toNat ∧ d.toNat ≤ 57 := by
        have := hb.1
        simp only [isDigitCh, Bool.and_eq_true, decide_eq_true_eq] at this
        exact this
      simp only [lexLt] at hlex
      by_cases h1 : c.toNat < d.toNat
      · rw [if_pos h1] at hlex
        cases hlex
      · rw [if_neg h1] at hlex
        by_cases h2 : d.toNat < c.toNat
        · have hcd : digitVal d + 1 ≤ digitVal c := by
            simp only [digitVal]
            omega
          have hub := digitsToNat_lt bs hb.2
          simp only [digitsToNat, hlen']
          have hmul : (digitVal d + 1) * 10 ^ bs.length ≤ digitVal c * 10 ^ bs.length :=
            mul_le_mul_right' hcd _
          rw [add_mul, one_mul] at hmul
          omega
        · rw [if_neg h2] at hlex
          have hdv : digitVal c = digitVal d := by
            simp only [digitVal]
            omega
          have := ih bs hlen' ha.2 hb.2 hlex
          simp only [digitsToNat, hdv, hlen']
          omega

theorem strContains_badIdMsg (m : String) : strContains m (badIdMsg m) = true := by
  show isSub m.data (badIdMsg m).data = true
  have h : (badIdMsg m).data =
      "Invalid arXiv ID format: \x27".data ++ m.data ++
        "\x27. Expected formats: \x27YYMM.NNNN[vN]\x27 or \x27subject-class/YYMMnnn[vN]\x27".data := by
    simp [badIdMsg, String.data_append]
  rw [h]
  exact isSub_append _ _ _

theorem checkOps_ok (ops : List String) (q : String)
    (h : ∀ op ∈ ops, opTriggers op q = false) : checkOps ops q = .ok () := by
  induction ops with
  | nil => rfl
  | cons x rest ih =>
    have hx := h x (List.mem_cons_self x rest)
    simp only [checkOps, hx, Bool.false_eq_true, if_false]
    exact ih (fun y hy => h y (List.mem_cons_of_mem _ hy))

theorem checkOps_error (ops : List String) (q : String) (op : String)
    (hmem : op ∈ ops) (htr : opTriggers op q = true) :
    ∃ op2, op2 ∈ ops ∧ opTriggers op2 q = true ∧ checkOps ops q = .error (opErrMsg op2) := by
  induction ops with
  | nil => cases hmem
  | cons x rest ih =>
    by_cases hx : opTriggers x q = true
    · refine ⟨x, List.mem_cons_self x rest, hx, ?_⟩
      simp [checkOps, hx]
    · have hx' : opTriggers x q = false := by
        rwa [Bool.not_eq_true] at hx
      have hop : op ∈ rest := by
        rcases List.mem_cons.mp hmem with rfl | h
        · rw [htr] at hx'
          cases hx'
        · exact h
      obtain ⟨op2, hm2, ht2, he2⟩ := ih hop
      refine ⟨op2, List.mem_cons_of_mem _ hm2, ht2, ?_⟩
      simp only [checkOps, hx', Bool.false_eq_true, if_false]
      exact he2

theorem strContains_opErrMsg (op : String) : strContains op (opErrMsg op) = true := by
  show isSub op.data (opErrMsg op).data = true
  have h : (opErrMsg op).data =
      "Boolean operator \x27".data ++ op.data ++
        "\x27 should be surrounded by spaces or + signs".data := by
    simp [opErrMsg, String.data_append]
  rw [h]
  exact isSub_append _ _ _

theorem optOr_none_right (x : Option String) : optOr x none = x := by
  cases x <;> rfl

theorem optOr_some_left (a : String) (c : Option String) : optOr (some a) c = some a := rfl

theorem optOr_assoc (a b c : Option String) :
    optOr (optOr a b) c = optOr a (optOr b c) := by
  cases a <;> rfl

theorem qsLookup_insertPair (acc : List (String × List String)) (k' v' k : String) :
    qsLookup (insertPair acc (k', v')) k =
      if k = k' then some ((qsLookup acc k).getD [] ++ [v']) else qsLookup acc k := by
  induction acc with
  | nil =>
    by_cases hk : k = k'
    · subst hk
      simp [insertPair, qsLookup]
    · have hk' : ¬k' = k := fun h => hk h.symm
      simp [insertPair, qsLookup, hk, hk']
  | cons hd rest ih =>
    obtain ⟨k0, vs⟩ := hd
    by_cases h0 : k0 = k'
    · subst h0
      by_cases hk : k0 = k
      · subst hk
        simp [insertPair, qsLookup]
      · have hk' : ¬k = k0 := fun h => hk h.symm
        simp [insertPair, qsLookup, hk, hk']
    · by_cases hk : k0 = k
      · subst hk
        have hk' : ¬k0 = k' := h0
        simp [insertPair, qsLookup, h0, hk']
      · simp [insertPair, qsLookup, h0, hk, ih]

theorem getFirst_insertPair (acc : List (String × List String)) (k' v' k : String) :
    getFirst (insertPair acc (k', v')) k =
      if k = k' then optOr (getFirst acc k) (some v') else getFirst acc k := by
  unfold getFirst
  rw [qsLookup_insertPair]
  by_cases hk : k = k'
  · subst hk
    rcases hq : qsLookup acc k with _ | vs
    · simp [optOr]
    · rcases vs with _ | ⟨v0, vs'⟩ <;> simp [optOr]
  · simp [hk]

theorem isSome_qsLookup_insertPair (acc : List (String × List String)) (k' v' k : String) :
    (qsLookup (insertPair acc (k', v')) k).isSome =
      if k = k' then true else (qsLookup acc k).isSome := by
  rw [qsLookup_insertPair]
  by_cases hk : k = k' <;> simp [hk]

theorem getFirst_foldl (l : List (String × String)) :
    ∀ (acc : List (String × List String)) (k : String),
      getFirst (l.foldl insertPair acc) k = optOr (getFirst acc k) (firstVal l k) := by
  induction l with
  | nil =>
    intro acc k
    simp [firstVal, optOr_none_right]
  | cons hd l' ih =>
    obtain ⟨k1, v1⟩ := hd
    intro acc k
    rw [List.foldl_cons, ih (insertPair acc (k1, v1)) k, getFirst_insertPair]
    by_cases hk : k = k1
    · subst hk
      rw [if_pos rfl]
      show optOr (optOr (getFirst acc k) (some v1)) (firstVal l' k) = _
      rw [optOr_assoc, optOr_some_left]
      simp [firstVal]
    · rw [if_neg hk]
      have hk' : ¬k1 = k := fun h => hk h.symm
      simp [firstVal, hk']

theorem isSome_qsLookup_foldl (l : List (String × String)) :
    ∀ (acc : List (String × List String)) (k : String),
      (qsLookup (l.foldl insertPair acc) k).isSome =
        ((qsLookup acc k).isSome || (firstVal l k).isSome) := by
  induction l with
  | nil =>
    intro acc k
    simp [firstVal]
  | cons hd l' ih =>
    obtain ⟨k1, v1⟩ := hd
    intro acc k
    rw [List.foldl_cons, ih (insertPair acc (k1, v1)) k, isSome_qsLookup_insertPair]
    by_cases hk : k = k1
    · subst hk
      simp [firstVal]
    · have hk' : ¬k1 = k := fun h => hk h.symm
      simp [firstVal, hk, hk']

theorem getFirst_parse_qs (s k : String) :
    getFirst (parse_qs s) k = firstVal (parse_qsl s) k := by
  unfold parse_qs
  rw [getFirst_foldl]
  rfl

theorem isSome_qsLookup_parse_qs (s k : String) :
    (qsLookup (parse_qs s) k).isSome = (firstVal (parse_qsl s) k).isSome := by
  unfold parse_qs
  rw [isSome_qsLookup_foldl]
  rfl

theorem mem_qsKeys_iff (p : List (String × List String)) (k : String) :
    k ∈ qsKeys p ↔ (qsLookup p k).isSome = true := by
  induction p with
  | nil =>
    show k ∈ ([] : List String) ↔ _
    simp [qsLookup]
  | cons hd rest ih =>
    obtain ⟨k0, vs⟩ := hd
    show k ∈ k0 :: qsKeys rest ↔ _
    by_cases hk : k0 = k
    · subst hk
      simp [qsLookup]
    · have hk' : ¬k = k0 := fun h => hk h.symm
      rw [show qsLookup ((k0, vs) :: rest) k = qsLookup rest k from by simp [qsLookup, hk]]
      rw [List.mem_cons]
      constructor
      · intro h
        rcases h with h | h
        · exact absurd h hk'
        · exact ih.mp h
      · intro h
        exact Or.inr (ih.mpr h)

theorem firstVal_isSome_mem (l : List (String × String)) (k : String)
    (h : (firstVal l k).isSome = true) : ∃ v, (k, v) ∈ l := by
  induction l with
  | nil => simp [firstVal] at h
  | cons hd rest ih =>
    obtain ⟨k0, v0⟩ := hd
    by_cases hk : k0 = k
    · subst hk
      exact ⟨v0, List.mem_cons_self _ _⟩
    · rw [show firstVal ((k0, v0) :: rest) k = firstVal rest k by simp [firstVal, hk]] at h
      obtain ⟨v, hv⟩ := ih h
      exact ⟨v, List.mem_cons_of_mem _ hv⟩

theorem parseSeg_name_val (seg : List Char) (n v : String)
    (h : parseSeg seg = some (n, v)) :
    segNameDecoded seg = n ∧ segIsEmptyVal seg = false := by
  unfold parseSeg at h
  split at h
  · cases h
  · rcases hsp : splitOnFirstEq seg with _ | nv
    · rw [hsp] at h
      cases h
    · obtain ⟨n0, v0⟩ := nv
      rw [hsp] at h
      have h' : (if v0 = [] then none
          else some ((⟨decodeComponent n0⟩ : String), (⟨decodeComponent v0⟩ : String))) =
            some (n, v) := h
      split at h'
      · cases h'
      · rename_i hv0
        injection h' with h''
        injection h'' with ha hb
        subst ha
        constructor
        · simp [segNameDecoded, hsp]
        · simp only [segIsEmptyVal, hsp]
          rw [List.isEmpty_eq_false_iff_exists_mem]
          rcases v0 with _ | ⟨c, v0'⟩
          · exact absurd rfl hv0
          · exact ⟨c, List.mem_cons_self _ _⟩

theorem requiredCheck_ok_of (p : List (String × List String))
    (h : requiredOkB p = true) : requiredCheck p = .ok () := by
  simp [requiredCheck, h]

theorem stepField_ok_of (p : List (String × List String)) (name : String)
    (f : String → Except String ParamValue) (acc : List (String × ParamValue))
    (h : stepOkB p name f = true) : ∃ r, stepField p name f acc = .ok r := by
  unfold stepOkB at h
  rcases hg : getFirst p name with _ | raw
  · exact ⟨acc, by simp [stepField, hg]⟩
  · rw [hg] at h
    have h' : exOk (f raw) = true := h
    rcases hf : f raw with e | w
    · rw [hf] at h'
      simp [exOk] at h'
    · exact ⟨acc ++ [(name, w)], by simp [stepField, hg, hf]⟩

theorem unknownKeys_nil_of_ok (p : List (String × List String))
    (v : List (String × ParamValue)) (h : validateParsed p = .ok v) :
    unknownKeys p = [] := by
  unfold validateParsed at h
  repeat' split at h
  all_goals try exact Except.noConfusion h
  rename_i heq
  unfold unknownCheck at heq
  split at heq
  · assumption
  · exact Except.noConfusion heq

theorem validateParsed_error_of_stepsOk (p : List (String × List String))
    (hsteps : fieldStepsOk p = true) (hne : unknownKeys p ≠ []) :
    validateParsed p = .error (unknownMsg p) := by
  unfold fieldStepsOk at hsteps
  simp only [Bool.and_eq_true] at hsteps
  obtain ⟨⟨⟨⟨⟨⟨hreq, hs1⟩, hs2⟩, hs3⟩, hs4⟩, hs5⟩, hs6⟩ := hsteps
  have hr := requiredCheck_ok_of p hreq
  obtain ⟨r1, h1⟩ := stepField_ok_of p "search_query" _ [] hs1
  obtain ⟨r2, h2⟩ := stepField_ok_of p "id_list" _ r1 hs2
  obtain ⟨r3, h3⟩ := stepField_ok_of p "start" _ r2 hs3
  obtain ⟨r4, h4⟩ := stepField_ok_of p "max_results" _ r3 hs4
  obtain ⟨r5, h5⟩ := stepField_ok_of p "sortBy" _ r4 hs5
  obtain ⟨r6, h6⟩ := stepField_ok_of p "sortOrder" _ r5 hs6
  simp only [validateParsed, hr, h1, h2, h3, h4, h5, h6, unknownCheck, if_neg hne]

/-! ## Claim theorems -/

/--
Claim C7: the max_results validator parses its raw string as a base-10
integer (`pyInt`), fails with the malformed-integer error when parsing
fails, fails with an out-of-range error when the parsed value is ≤ 0 or
> 2000, and otherwise returns the parsed integer; `"0"`, `"2001"` and
`"abc"` all fail while `"1"` and `"2000"` succeed with 1 and 2000.
-/
theorem c7_max_results_contract :
    (∀ s n, pyInt s = some n → 0 < n → n ≤ 2000 → validate_max_results s = .ok n) ∧
    (∀ s n, pyInt s = some n → n ≤ 0 ∨ 2000 < n → ∃ e, validate_max_results s = .error e) ∧
    (∀ s, pyInt s = none →
      validate_max_results s = .error "\x27max_results\x27 must be a valid integer") ∧
    validate_max_results "0" = .error "\x27max_results\x27 must be positive" ∧
    validate_max_results "2001" =
      .error "\x27max_results\x27 cannot exceed 2000 (arXiv API limit)" ∧
    validate_max_results "abc" = .error "\x27max_results\x27 must be a valid integer" ∧
    validate_max_results "1" = .ok 1 ∧
    validate_max_results "2000" = .ok 2000 := by
  refine ⟨?_, ?_, ?_, by decide, by decide, by decide, by decide, by decide⟩
  · intro s n hp h1 h2
    simp only [validate_max_results, hp]
    rw [if_neg (by omega), if_neg (by omega)]
  · intro s n hp h
    rcases h with h | h
    · refine ⟨"\x27max_results\x27 must be positive", ?_⟩
      simp only [validate_max_results, hp]
      rw [if_pos h]
    · refine ⟨"\x27max_results\x27 cannot exceed 2000 (arXiv API limit)", ?_⟩
      simp only [validate_max_results, hp]
      rw [if_neg (by omega), if_pos h]
  · intro s hp
    simp [validate_max_results, hp]

/-- Claim C7 witness: instantiation at the in-range input `"5"`. -/
theorem c7_max_results_contract_witness : validate_max_results "5" = .ok 5 :=
  c7_max_results_contract.1 "5" 5 (by decide) (by decide) (by decide)

/--
Claim C9: the start and max_results validators accept some strings that are
not plain base-10 numerals — surrounding whitespace, a leading plus sign,
and underscore separators all parse, returning the corresponding integers.
-/
theorem c9_lenient_integer_parsing :
    validate_start " 5 " = .ok 5 ∧
    validate_start "+5" = .ok 5 ∧
    validate_start "1_0" = .ok 10 ∧
    validate_max_results " 5 " = .ok 5 ∧
    validate_max_results "+5" = .ok 5 ∧
    validate_max_results "1_0" = .ok 10 ∧
    " 5 ".data.all isDigitCh = false ∧
    "+5".data.all isDigitCh = false ∧
    "1_0".data.all isDigitCh = false := by
  refine ⟨by decide, by decide, by decide, by decide, by decide, by decide,
    by decide, by decide, by decide⟩

/--
Claim C6: the id_list validator splits on commas and strips each member; an
empty member fails, a non-empty member must match the legacy or the modern
identifier shape, a failing member yields a malformed-identifier error
naming it, and when all members match the input string is returned
unchanged; `2301.00001`, `2301.00001v1` and `math.GT/0309136v1` are
accepted.
-/
theorem c6_id_list_contract :
    (∀ s : String, validate_id_list s = .ok s ↔
      ∀ m ∈ idMembers s, m ≠ "" ∧ (matchOldId m = true ∨ matchNewId m = true)) ∧
    (∀ s v, validate_id_list s = .ok v → v = s) ∧
    (∀ s pre m rest, idMembers s = pre ++ m :: rest →
      (∀ x ∈ pre, memberOkB x = true) → memberOkB m = false →
      validate_id_list s = .error (idErrMsg m)) ∧
    (∀ m : String, m ≠ "" → idErrMsg m = badIdMsg m ∧ strContains m (idErrMsg m) = true) ∧
    (∀ m : String, m = "" → idErrMsg m = emptyIdMsg) ∧
    validate_id_list "2301.00001" = .ok "2301.00001" ∧
    validate_id_list "2301.00001v1" = .ok "2301.00001v1" ∧
    validate_id_list "math.GT/0309136v1" = .ok "math.GT/0309136v1" := by
  refine ⟨?_, ?_, ?_, ?_, ?_, by decide, by decide, by decide⟩
  · intro s
    constructor
    · intro h m hm
      have hok : checkIds (idMembers s) = .ok () := by
        unfold validate_id_list at h
        rcases hc : checkIds (idMembers s) with e | u
        · rw [hc] at h
          simp at h
        · rfl
      exact (memberOkB_iff m).mp ((checkIds_ok_iff (idMembers s)).mp hok m hm)
    · intro h
      have hok : checkIds (idMembers s) = .ok () :=
        (checkIds_ok_iff (idMembers s)).mpr
          (fun m hm => (memberOkB_iff m).mpr (h m hm))
      simp [validate_id_list, hok]
  · intro s v h
    unfold validate_id_list at h
    rcases hc : checkIds (idMembers s) with e | u
    · rw [hc] at h
      simp at h
    · rw [hc] at h
      cases h
      rfl
  · intro s pre m rest hsplit hpre hm
    have herr := checkIds_first_error pre m rest hpre hm
    rw [← hsplit] at herr
    simp [validate_id_list, herr]
  · intro m hm
    have hb : (m == "") = false := by simp [hm]
    refine ⟨by simp [idErrMsg, hb], ?_⟩
    have hred : idErrMsg m = badIdMsg m := by simp [idErrMsg, hb]
    rw [hred]
    exact strContains_badIdMsg m
  · intro m hm
    simp [idErrMsg, hm]

/-- Claim C6 witness: a list whose second member is malformed fails with
the malformed-identifier message naming that member. -/
theorem c6_id_list_contract_witness :
    validate_id_list "2301.00001,zz" = .error (idErrMsg "zz") :=
  c6_id_list_contract.2.2.1 "2301.00001,zz" ["2301.00001"] "zz" []
    (by decide) (by decide) (by decide)

/--
Claim C10, amended: the submittedDate range validator accepts exactly the
strings of shape `[`, 12-digit start, `+TO+`, 12-digit end, `]`,
*optionally followed by a single trailing newline* — the source anchors the
regex with `$`, which in Python also matches just before one newline at the
end of the string. On shape mismatch it fails with the format error; on
shape match it fails with the range-order error unless the start sorts
strictly before the end lexicographically (equivalently, since both are
fixed-width digit strings, numerically); otherwise it returns the input
(trailing newline included) unchanged.
-/
theorem c10_submitted_date_contract :
    (∀ s : String, matchSubmittedShape s.data = none →
      validate_submitted_date s = .error submittedFmtMsg) ∧
    (∀ s : String, ∀ d1 d2, matchSubmittedShape s.data = some (d1, d2) →
      ∃ tail, (tail = [']'] ∨ tail = [']', '\n']) ∧
        s.data = '[' :: (d1 ++ '+' :: 'T' :: 'O' :: '+' :: (d2 ++ tail)) ∧
        d1.length = 12 ∧ d1.all isDigitCh = true ∧
        d2.length = 12 ∧ d2.all isDigitCh = true) ∧
    (∀ d1 d2 tail : List Char, (tail = [']'] ∨ tail = [']', '\n']) →
      d1.length = 12 → d1.all isDigitCh = true →
      d2.length = 12 → d2.all isDigitCh = true →
      matchSubmittedShape ('[' :: (d1 ++ '+' :: 'T' :: 'O' :: '+' :: (d2 ++ tail))) =
        some (d1, d2)) ∧
    (∀ s : String, ∀ d1 d2, matchSubmittedShape s.data = some (d1, d2) →
      (lexLt d1 d2 = true → validate_submitted_date s = .ok s) ∧
      (lexLt d1 d2 = false → validate_submitted_date s = .error submittedOrderMsg)) ∧
    (∀ d1 d2 : List Char, d1.length = d2.length → d1.all isDigitCh = true →
      d2.all isDigitCh = true →
      (lexLt d1 d2 = true ↔ digitsToNat d1 < digitsToNat d2)) := by
  refine ⟨?_, ?_, ?_, ?_, ?_⟩
  · intro s h
    simp [validate_submitted_date, h]
  · intro s d1 d2 h
    exact matchSubmittedShape_some s.data d1 d2 h
  · intro d1 d2 tail htail hl1 hd1 hl2 hd2
    exact matchSubmittedShape_build d1 d2 tail htail hl1 hd1 hl2 hd2
  · intro s d1 d2 h
    constructor
    · intro hlt
      simp [validate_submitted_date, h, hlt]
    · intro hlt
      simp [validate_submitted_date, h, hlt]
  · intro d1 d2 hlen hd1 hd2
    constructor
    · exact lexLt_imp_digitsToNat_lt d1 d2 hlen hd1 hd2
    · intro hv
      rcases hl : lexLt d1 d2 with _ | _
      · have := lexLt_false_imp_ge d1 d2 hlen hd1 hd2 hl
        omega
      · rfl

/-- Claim C10 witness: a well-formed, correctly ordered range is accepted. -/
theorem c10_submitted_date_contract_witness :
    validate_submitted_date "[202001010000+TO+202101010000]" =
      .ok "[202001010000+TO+202101010000]" :=
  (c10_submitted_date_contract.2.2.2.1 "[202001010000+TO+202101010000]"
    "202001010000".data "202101010000".data (by decide)).1 (by decide)

/--
Claim C10 counterexample: the validator does not accept *exactly* the
bracketed shape — the regex anchor `$` also matches just before one
trailing newline, so the newline-suffixed input below (whose last
character is `'\n'`, not the `']'` the claimed shape ends with) is
accepted and returned unchanged instead of failing with the format error.
-/
theorem c10_submitted_date_cex :
    validate_submitted_date "[202001010000+TO+202101010000]\n" =
      .ok "[202001010000+TO+202101010000]\n" ∧
    "[202001010000+TO+202101010000]\n".data.getLast? = some '\n' ∧
    ('\n' : Char) ≠ ']' := by
  refine ⟨by decide, by decide, by decide⟩

/--
Claim C3, amended: the operator check runs only after the field-prefix
check has passed. Under that proviso, for each operator keyword occurring
as a substring of the uppercased query and not flanked by spaces or plus
signs in the original query, the validator fails, and the error is a
malformed-boolean-operator error naming an operator that occurs and is
unflanked (which one is reported depends on Python's set iteration order;
the reported operator is always an offending one). When no keyword occurs
under the membership test, the operator check imposes no constraint: the
result is decided by the field-prefix check alone.
-/
theorem c3_operator_check_amended :
    (∀ q op, op ∈ validOperators → checkFields (fieldsOf q) = .ok () →
      isSub op.data (pyUpper q.data) = true →
      isSub (spaceFlank op).data q.data = false →
      isSub (plusFlank op).data q.data = false →
      ∃ op2, op2 ∈ validOperators ∧ opTriggers op2 q = true ∧
        validate_search_query q = .error (opErrMsg op2)) ∧
    (∀ q : String, (∀ op ∈ validOperators, isSub op.data (pyUpper q.data) = false) →
      (checkFields (fieldsOf q) = .ok () → validate_search_query q = .ok q) ∧
      (∀ e, checkFields (fieldsOf q) = .error e → validate_search_query q = .error e)) ∧
    (∀ op : String, strContains op (opErrMsg op) = true) := by
  refine ⟨?_, ?_, strContains_opErrMsg⟩
  · intro q op hmem hfields hocc hsp hpl
    have htr : opTriggers op q = true := by
      simp [opTriggers, hocc, hsp, hpl]
    obtain ⟨op2, hm2, ht2, he2⟩ := checkOps_error validOperators q op hmem htr
    refine ⟨op2, hm2, ht2, ?_⟩
    simp [validate_search_query, hfields, he2]
  · intro q hnone
    have hok : checkOps validOperators q = .ok () := by
      refine checkOps_ok validOperators q (fun op hop => ?_)
      simp [opTriggers, hnone op hop]
    exact ⟨fun hf => by simp [validate_search_query, hf, hok],
      fun e hf => by simp [validate_search_query, hf]⟩

/-- Claim C3 witness: a prefix-valid query with an unflanked `AND` fails
with a malformed-boolean-operator error naming an offending operator. -/
theorem c3_operator_check_amended_witness :
    ∃ op2, op2 ∈ validOperators ∧ opTriggers op2 "ti:a.AND.b" = true ∧
      validate_search_query "ti:a.AND.b" = .error (opErrMsg op2) :=
  c3_operator_check_amended.1 "ti:a.AND.b" "AND" (by decide) (by decide)
    (by decide) (by decide) (by decide)

/--
Claim C3 counterexample: on `"xx:q.AND.b"` the keyword `AND` occurs in the
uppercased query and is not flanked, yet the validator fails with the
unknown-field-prefix error (the prefix check runs first), which is not a
malformed-boolean-operator error and does not name `AND`.
-/
theorem c3_operator_check_cex :
    isSub "AND".data (pyUpper "xx:q.AND.b".data) = true ∧
    isSub " AND ".data "xx:q.AND.b".data = false ∧
    isSub "+AND+".data "xx:q.AND.b".data = false ∧
    validate_search_query "xx:q.AND.b" = .error (prefixErrMsg "xx") ∧
    strContains "AND" (prefixErrMsg "xx") = false ∧
    prefixErrMsg "xx" ≠ opErrMsg "AND" := by
  refine ⟨by decide, by decide, by decide, by decide, by decide, by decide⟩

/--
Claim C4, amended: a query whose field prefixes are all valid and in which
every operator keyword occurring as a substring of the uppercased query is
space- or plus-flanked passes validation. However, the claim's ANDNOT
examples fail: in `"ti:a ANDNOT ti:b"` (and its plus-flanked variant) the
keyword `AND` occurs as a substring of the uppercased query without being
flanked itself, so the validator rejects the query naming `AND`.
-/
theorem c4_flanked_operators_amended :
    (∀ q : String, checkFields (fieldsOf q) = .ok () →
      (∀ op ∈ validOperators, isSub op.data (pyUpper q.data) = true →
        isSub (spaceFlank op).data q.data = true ∨
          isSub (plusFlank op).data q.data = true) →
      validate_search_query q = .ok q) ∧
    validate_search_query "ti:a AND ti:b" = .ok "ti:a AND ti:b" ∧
    validate_search_query "ti:a ANDNOT ti:b" = .error (opErrMsg "AND") ∧
    validate_search_query "ti:a+ANDNOT+ti:b" = .error (opErrMsg "AND") := by
  refine ⟨?_, by decide, by decide, by decide⟩
  intro q hfields hflank
  have hok : checkOps validOperators q = .ok () := by
    refine checkOps_ok validOperators q (fun op hop => ?_)
    by_cases hocc : isSub op.data (pyUpper q.data) = true
    · rcases hflank op hop hocc with h | h <;> simp [opTriggers, h]
    · have : isSub op.data (pyUpper q.data) = false := by rwa [Bool.not_eq_true] at hocc
      simp [opTriggers, this]
  simp [validate_search_query, hfields, hok]

/-- Claim C4 witness: a fully flanked query is accepted via the amended
acceptance clause. -/
theorem c4_flanked_operators_amended_witness :
    validate_search_query "au:x OR au:y" = .ok "au:x OR au:y" :=
  c4_flanked_operators_amended.1 "au:x OR au:y" (by decide) (by decide)

/--
Claim C4 counterexample: both flanked-ANDNOT example queries of the claim
have valid prefixes and a properly flanked `ANDNOT`, yet validation rejects
them with the malformed-boolean-operator error naming `AND`.
-/
theorem c4_flanked_operators_cex :
    checkFields (fieldsOf "ti:a ANDNOT ti:b") = .ok () ∧
    isSub " ANDNOT ".data "ti:a ANDNOT ti:b".data = true ∧
    validate_search_query "ti:a ANDNOT ti:b" = .error (opErrMsg "AND") ∧
    checkFields (fieldsOf "ti:a+ANDNOT+ti:b") = .ok () ∧
    isSub "+ANDNOT+".data "ti:a+ANDNOT+ti:b".data = true ∧
    validate_search_query "ti:a+ANDNOT+ti:b" = .error (opErrMsg "AND") := by
  refine ⟨by decide, by decide, by decide, by decide, by decide, by decide⟩

/--
Claim C1, amended: for every raw query string whose parsed mapping contains
a key outside the recognized six, validation fails — but the failure is the
unknown-parameter error naming that key only when the required-parameter
rule and every dispatched per-field validator succeed; an earlier failure
(missing-required or a per-field error) wins otherwise, because the
unknown-parameter guard runs last.
-/
theorem c1_unknown_parameter_amended :
    ∀ s k : String, k ∈ qsKeys (parse_qs s) → knownParams.contains k = false →
      (∃ e, validate_arxiv_params s = .error e) ∧
      (fieldStepsOk (parse_qs s) = true →
        validate_arxiv_params s =
          .error ("Parameter validation failed: " ++ unknownMsg (parse_qs s)) ∧
        strContains k (unknownMsg (parse_qs s)) = true) := by
  intro s k hk hunk
  have hmemU : k ∈ unknownKeys (parse_qs s) := by
    refine List.mem_filter.mpr ⟨hk, ?_⟩
    simpa using hunk
  have hne : unknownKeys (parse_qs s) ≠ [] := by
    intro h0
    rw [h0] at hmemU
    exact absurd hmemU (List.not_mem_nil k)
  constructor
  · rcases hv : validateParsed (parse_qs s) with e | v
    · exact ⟨"Parameter validation failed: " ++ e, by simp [validate_arxiv_params, hv]⟩
    · exact absurd (unknownKeys_nil_of_ok _ v hv) hne
  · intro hsteps
    have herr := validateParsed_error_of_stepsOk _ hsteps hne
    refine ⟨by simp [validate_arxiv_params, herr], ?_⟩
    unfold unknownMsg
    exact strContains_append_join k "Unknown parameters: " _ hmemU

/-- Claim C1 witness: a well-formed query carrying the unrecognized key
`foo` fails with the wrapped unknown-parameter error. -/
theorem c1_unknown_parameter_amended_witness :
    ("foo" ∈ qsKeys (parse_qs "search_query=ti:a&foo=bar")) ∧
    (∃ e, validate_arxiv_params "search_query=ti:a&foo=bar" = .error e) ∧
    validate_arxiv_params "search_query=ti:a&foo=bar" =
      .error ("Parameter validation failed: " ++
        unknownMsg (parse_qs "search_query=ti:a&foo=bar")) := by
  have h := c1_unknown_parameter_amended "search_query=ti:a&foo=bar" "foo"
    (by decide) (by decide)
  exact ⟨by decide, h.1, (h.2 (by decide)).1⟩

/--
Claim C1 counterexample: with the unrecognized key `foo` present, the input
`"foo=bar"` fails with the missing-required error (not an unknown-parameter
error, and not naming `foo`), and `"search_query=xx:a&foo=bar"` fails with
the field-prefix error of the recognized parameter — both contradict the
claim that the unknown-parameter error is reported regardless.
-/
theorem c1_unknown_parameter_cex :
    validate_arxiv_params "foo=bar" =
      .error ("Parameter validation failed: " ++ requiredMsg) ∧
    strContains "foo" ("Parameter validation failed: " ++ requiredMsg) = false ∧
    strContains "Unknown parameters" ("Parameter validation failed: " ++ requiredMsg) = false ∧
    validate_arxiv_params "search_query=xx:a&foo=bar" =
      .error ("Parameter validation failed: " ++ prefixErrMsg "xx") ∧
    strContains "Unknown parameters"
      ("Parameter validation failed: " ++ prefixErrMsg "xx") = false := by
  refine ⟨by decide, by decide, by decide, by decide, by decide⟩

/--
Claim C2, amended: a per-field validator failure short-circuits the
orchestration (the dispatcher forwards the validator's error unchanged),
but the caller does not receive it as-is: the surrounding exception handler
re-wraps every failure with the fixed prefix `"Parameter validation
failed: "`, preserving the validator's message verbatim as the suffix.
-/
theorem c2_error_surfacing_amended :
    (∀ s m, validateParsed (parse_qs s) = .error m →
      validate_arxiv_params s = .error ("Parameter validation failed: " ++ m)) ∧
    (∀ p name f acc raw m, getFirst p name = some raw → f raw = .error m →
      stepField p name f acc = .error m) := by
  constructor
  · intro s m h
    simp [validate_arxiv_params, h]
  · intro p name f acc raw m hg hf
    simp [stepField, hg, hf]

/-- Claim C2 witness: a failing start validator surfaces as the wrapped
message. -/
theorem c2_error_surfacing_amended_witness :
    validate_arxiv_params "search_query=ti:a&start=-2" =
      .error ("Parameter validation failed: " ++ "\x27start\x27 must be non-negative") :=
  c2_error_surfacing_amended.1 "search_query=ti:a&start=-2"
    "\x27start\x27 must be non-negative" (by decide)

/--
Claim C2 counterexample: the max_results validator fails on `"0"` with its
own message, but the caller of the orchestrator receives that message with
the prefix `"Parameter validation failed: "` prepended — not the
validator's error as-is.
-/
theorem c2_error_surfacing_cex :
    validate_max_results "0" = .error "\x27max_results\x27 must be positive" ∧
    validate_arxiv_params "id_list=2301.00001&max_results=0" =
      .error "Parameter validation failed: \x27max_results\x27 must be positive" ∧
    ("Parameter validation failed: \x27max_results\x27 must be positive" ≠
      "\x27max_results\x27 must be positive") := by
  refine ⟨by decide, by decide, by decide⟩

/--
Claim C5, amended: the parser drops every occurrence whose value is empty
(and every occurrence without an `=`); among the retained occurrences the
first wins, its value is the one validated and returned, and later
retained duplicates are silently dropped. Consequently the value used for
a name is the first occurrence with a non-empty value, which differs from
the first value given when an earlier occurrence has an empty value.
-/
theorem c5_first_retained_value_amended :
    (∀ s k : String, getFirst (parse_qs s) k = firstVal (parse_qsl s) k) ∧
    validate_arxiv_params "search_query=ti:a&search_query=ti:b" =
      .ok [("search_query", ParamValue.str "ti:a")] ∧
    parse_qsl "search_query=&search_query=ti:a" = [("search_query", "ti:a")] := by
  refine ⟨getFirst_parse_qs, by decide, by decide⟩

/--
Claim C5 counterexample: in `"search_query=&search_query=ti:a"` the first
value given for `search_query` in the raw query is the empty string, yet
the parser retains and the orchestrator validates and returns the later
value `"ti:a"` — the first value given does not win.
-/
theorem c5_first_retained_value_cex :
    firstVal (specRawPairs "search_query=&search_query=ti:a") "search_query" = some "" ∧
    getFirst (parse_qs "search_query=&search_query=ti:a") "search_query" = some "ti:a" ∧
    validate_arxiv_params "search_query=&search_query=ti:a" =
      .ok [("search_query", ParamValue.str "ti:a")] ∧
    (some "ti:a" ≠ some "") := by
  refine ⟨by decide, by decide, by decide, by decide⟩

/--
Claim C8: a key whose every occurrence in the raw query string carries an
empty value is absent from the parsed mapping; `"search_query="` alone
fails with the wrapped missing-required error rather than dispatching the
search_query validator, and an unrecognized key with an empty value does
not trigger the unknown-parameter failure.
-/
theorem c8_blank_values_dropped :
    (∀ s k : String,
      (∀ seg ∈ splitSep '&' s.data, segNameDecoded seg = k → segIsEmptyVal seg = true) →
      ¬ k ∈ qsKeys (parse_qs s)) ∧
    validate_arxiv_params "search_query=" =
      .error ("Parameter validation failed: " ++ requiredMsg) ∧
    validate_arxiv_params "search_query=ti:quantum&foo=" =
      .ok [("search_query", ParamValue.str "ti:quantum")] := by
  refine ⟨?_, by decide, by decide⟩
  intro s k h hk
  have h1 : (qsLookup (parse_qs s) k).isSome = true := (mem_qsKeys_iff _ k).mp hk
  rw [isSome_qsLookup_parse_qs] at h1
  obtain ⟨v, hv⟩ := firstVal_isSome_mem _ k h1
  obtain ⟨seg, hsegmem, hsegeq⟩ := List.mem_filterMap.mp hv
  obtain ⟨hname, hval⟩ := parseSeg_name_val seg k v hsegeq
  have hempty := h seg hsegmem hname
  rw [hval] at hempty
  cases hempty

/-- Claim C8 witness: both occurrences of `a` in `"a=&a="` have empty
values, so `a` is absent from the parsed mapping. -/
theorem c8_blank_values_dropped_witness :
    ¬ "a" ∈ qsKeys (parse_qs "a=&a=") :=
  c8_blank_values_dropped.1 "a=&a=" "a" (by decide)
